import Mathlib

/-!
Verification development for the activitystreams repository.

The development shallowly embeds the parts of the code the claims talk
about:

* `src/src/primitives/xsd_duration.rs`: the `FromStr` parser, the helper
  `parse_next`, and the `Display` formatter for `XsdDuration`.  Rust
  strings are modelled as `List Char`; `time::Duration` is modelled as a
  mathematical integer counting nanoseconds (the `time` crate stores
  seconds plus nanoseconds with this exact meaning, and all whole-unit
  accessors truncate toward zero, which is `Int.tdiv`).
* `src/activitystreams-derive/src/lib.rs`: the `properties!` macro.  The
  macro emits one struct per declaration; the embedding reproduces the
  emitted code generically, parameterised by the value kind.  The serde
  attributes on the emitted code (`untagged`, `skip_serializing_if =
  Option.is_none`, aliases, implicit `None` default for `Option`
  fields) are given their documented serde semantics over a small JSON
  model.
-/

namespace ActivityStreams

/-! ### JSON model -/

/-- A JSON value, as produced and consumed by serde_json. -/
inductive Json where
  | null : Json
  | bool (b : Bool) : Json
  | num (n : Int) : Json
  | str (s : String) : Json
  | arr (elems : List Json) : Json
  | obj (fields : List (String × Json)) : Json

/-! ### Duration codec: embeds src/src/primitives/xsd_duration.rs -/

namespace XsdDuration

/-- The error type produced when an XsdDuration cannot be parsed
(struct `XsdDurationError`). -/
inductive XsdDurationError where
  | mk : XsdDurationError
deriving DecidableEq

deriving instance DecidableEq for Except

/-- Nanoseconds in one second: `time::Duration` counts nanoseconds. -/
def nsPerSec : Int := 1000000000

/-- `time::Duration::seconds`. -/
def seconds (n : Int) : Int := n * nsPerSec

/-- `time::Duration::minutes`. -/
def minutes (n : Int) : Int := seconds (60 * n)

/-- `time::Duration::hours`. -/
def hours (n : Int) : Int := seconds (3600 * n)

/-- `time::Duration::days`. -/
def days (n : Int) : Int := seconds (86400 * n)

/-- Rust `str::find(char)`: index of the first occurrence, if any. -/
def find (c : Char) : List Char → Option Nat
  | [] => none
  | x :: xs => if x = c then some 0 else (find c xs).map (· + 1)

/-- Rust `str::trim_start_matches(char)`: drop every leading occurrence. -/
def trim_start_matches (c : Char) : List Char → List Char
  | [] => []
  | x :: xs => if x = c then trim_start_matches c xs else x :: xs

/-- Accumulate a digit string into a number; `none` on empty input or on a
non-digit character (the digit-consuming core of Rust `i64::from_str`). -/
def parseDigits : List Char → Option Nat
  | [] => none
  | cs =>
    cs.foldl
      (fun acc c =>
        match acc with
        | none => none
        | some n => if c.isDigit then some (n * 10 + (c.toNat - 48)) else none)
      (some 0)

/-- Smallest i64 value. -/
def i64Min : Int := -9223372036854775808

/-- Largest i64 value. -/
def i64Max : Int := 9223372036854775807

/-- Rust `i64::from_str`: an optional sign, then at least one digit, and the
value must fit in an i64. -/
def parse_i64 (s : List Char) : Option Int :=
  let signDigits : Int × List Char :=
    match s with
    | '+' :: rest => (1, rest)
    | '-' :: rest => (-1, rest)
    | rest => (1, rest)
  match parseDigits signDigits.2 with
  | none => none
  | some n =>
    let v : Int := signDigits.1 * (n : Int)
    if i64Min ≤ v ∧ v ≤ i64Max then some v else none

/-- `parse_next` from xsd_duration.rs: if designator `c` occurs, parse the
text before its first occurrence as an i64 and drop the designator(s);
otherwise yield 0 and the unchanged input. -/
def parse_next (s : List Char) (c : Char) :
    Except XsdDurationError (Int × List Char) :=
  match find c s with
  | some index =>
    match parse_i64 (s.take index) with
    | some i => .ok (i, trim_start_matches c (s.drop index))
    | none => .error .mk
  | none => .ok (0, s)

/-- The `let s = s.trim_start_matches('P')` step of `from_str`. -/
def afterP (s0 : List Char) : List Char := trim_start_matches 'P' s0

/-- The `let negative = Some(0) == s.find('-')` step of `from_str`. -/
def negFlag (s0 : List Char) : Bool := find '-' (afterP s0) == some 0

/-- The `let s = s.trim_start_matches('-')` step of `from_str`. -/
def afterSign (s0 : List Char) : List Char := trim_start_matches '-' (afterP s0)

/-- The date-part segment of `from_str`: everything before the first `T`,
or the whole remainder when there is no `T`. -/
def largeSeg (s0 : List Char) : List Char :=
  match find 'T' (afterSign s0) with
  | some index => (afterSign s0).take index
  | none => afterSign s0

/-- The time-part segment of `from_str`: everything from the first `T` with
the leading `T`(s) stripped, or empty when there is no `T`. -/
def smallSeg (s0 : List Char) : List Char :=
  match find 'T' (afterSign s0) with
  | some index => trim_start_matches 'T' ((afterSign s0).drop index)
  | none => []

/-- `impl FromStr for XsdDuration`, from xsd_duration.rs; the `?` early
returns are the error arms of the matches.  The result is the parsed
duration in nanoseconds. -/
def from_str (s0 : List Char) : Except XsdDurationError Int :=
  if find 'P' s0 ≠ some 0 then .error .mk
  else
    match parse_next (largeSeg s0) 'Y' with
    | .error e => .error e
    | .ok (years, large1) =>
      match parse_next large1 'M' with
      | .error e => .error e
      | .ok (months, large2) =>
        match parse_next large2 'D' with
        | .error e => .error e
        | .ok (daysN, _) =>
          match parse_next (smallSeg s0) 'H' with
          | .error e => .error e
          | .ok (hoursN, small1) =>
            match parse_next small1 'M' with
            | .error e => .error e
            | .ok (minutesN, small2) =>
              match parse_next small2 'S' with
              | .error e => .error e
              | .ok (secondsN, _) =>
                let duration := days (365 * years) + days (31 * months)
                  + days daysN + hours hoursN + minutes minutesN
                  + seconds secondsN
                .ok (if negFlag s0 then duration * (-1) else duration)

/-- Rust integer division truncates toward zero; the whole-unit accessors of
`time::Duration` are that truncating division by the unit size. -/
def whole_days (d : Int) : Int := d.tdiv (days 1)

/-- `time::Duration::whole_hours`. -/
def whole_hours (d : Int) : Int := d.tdiv (hours 1)

/-- `time::Duration::whole_minutes`. -/
def whole_minutes (d : Int) : Int := d.tdiv (minutes 1)

/-- `time::Duration::whole_seconds`. -/
def whole_seconds (d : Int) : Int := d.tdiv (seconds 1)

/-- Digits of an integer, as Rust `Display` for i64 produces them. -/
def intChars (n : Int) : List Char := (toString n).data

/-- `impl Display for XsdDuration`, from xsd_duration.rs, producing the
character list of the formatted string. -/
def fmt (d0 : Int) : List Char :=
  let start : List Char × Int :=
    if seconds 0 > d0 then ("P-".data, d0 * (-1)) else ("P".data, d0)
  let s := start.1
  let duration := start.2
  let s := if whole_days duration > 0 then s ++ intChars (whole_days duration) ++ ['D'] else s
  let duration := duration - days (whole_days duration)
  let s := if whole_seconds duration > 0 then s ++ ['T'] else s
  let s := if whole_hours duration > 0 then s ++ intChars (whole_hours duration) ++ ['H'] else s
  let duration := duration - hours (whole_hours duration)
  let s := if whole_minutes duration > 0 then s ++ intChars (whole_minutes duration) ++ ['M'] else s
  let duration := duration - minutes (whole_minutes duration)
  let s := if whole_seconds duration > 0 then s ++ intChars (whole_seconds duration) ++ ['S'] else s
  s

/-- The nonnegative duration the formatter works on after folding the sign
into the `P-` sign segment. -/
def absDur (d0 : Int) : Int := if seconds 0 > d0 then d0 * (-1) else d0

/-- Day count emitted by the formatter. -/
def fmtDays (d0 : Int) : Int := whole_days (absDur d0)

/-- Remainder the formatter holds after subtracting whole days. -/
def remAfterDays (d0 : Int) : Int := absDur d0 - days (fmtDays d0)

/-- Hour count emitted by the formatter. -/
def fmtHours (d0 : Int) : Int := whole_hours (remAfterDays d0)

/-- Remainder after subtracting whole hours. -/
def remAfterHours (d0 : Int) : Int := remAfterDays d0 - hours (fmtHours d0)

/-- Minute count emitted by the formatter. -/
def fmtMinutes (d0 : Int) : Int := whole_minutes (remAfterHours d0)

/-- Remainder after subtracting whole minutes. -/
def remAfterMinutes (d0 : Int) : Int := remAfterHours d0 - minutes (fmtMinutes d0)

/-- Second count emitted by the formatter. -/
def fmtSeconds (d0 : Int) : Int := whole_seconds (remAfterMinutes d0)

/-- Whether a value fits in an i64. -/
def fitsI64 (x : Int) : Bool := decide (i64Min ≤ x ∧ x ≤ i64Max)

/-- An i64 multiplication: `none` when the mathematical product leaves the
i64 range, where the source aborts (debug) or wraps (release) and in
neither case carries the mathematical product onward. -/
def mulI64 (a b : Int) : Option Int :=
  if fitsI64 (a * b) then some (a * b) else none

/-- A checked i64 addition, as the `time` crate's `Duration` addition
performs on the seconds field (it panics on overflow). -/
def addI64 (a b : Int) : Option Int :=
  if fitsI64 (a + b) then some (a + b) else none

/-- The accumulation step of `from_str` with the machine bounds of the
source made explicit, in the source's operation order over whole seconds:
`365 * years` and `31 * months` are i64 multiplications, each
`time::Duration::days/hours/minutes` constructor multiplies by its unit
size in i64, each `+=` adds i64 second counts, and the final negation
multiplies by `-1`.  Yields the accumulated seconds, or `none` as soon as
one operation leaves the i64 range — at which point the source panics
(debug) or wraps (release), in neither case producing the mathematical
sum.  `from_str` above idealizes this same accumulation over unbounded
integers. -/
def durAccumChecked (neg : Bool) (y mo d h mi se : Int) : Option Int := do
  let m1 ← mulI64 365 y
  let s1 ← mulI64 m1 86400
  let m2 ← mulI64 31 mo
  let s2 ← mulI64 m2 86400
  let a1 ← addI64 s1 s2
  let s3 ← mulI64 d 86400
  let a2 ← addI64 a1 s3
  let s4 ← mulI64 h 3600
  let a3 ← addI64 a2 s4
  let s5 ← mulI64 mi 60
  let a4 ← addI64 a3 s5
  let a5 ← addI64 a4 se
  if neg then mulI64 a5 (-1) else some a5

end XsdDuration

/-! ### The `properties!` macro: embeds src/activitystreams-derive/src/lib.rs

The macro is generative: for one declared property it emits a struct
field, helper enums and accessor functions.  The embedding reproduces the
emitted items generically: `α` stands for the declared value kind (the
`#v_ty` the macro substitutes), and a `Codec α` gives that kind its serde
encode/decode behavior on the JSON model. -/

/-- Serde encode/decode pair for one value kind. -/
structure Codec (α : Type) where
  enc : α → Json
  dec : Json → Option α

/-- Element-wise decoding of a JSON list; fails when any element fails
(serde semantics for `Vec<T>` content). -/
def decodeElems (dec : Json → Option α) : List Json → Option (List α)
  | [] => some []
  | x :: xs =>
    match dec x with
    | none => none
    | some v => (decodeElems dec xs).map (v :: ·)

/-- Serde decoding of `Vec<T>`: only a JSON array, element-wise. -/
def decodeVec (dec : Json → Option α) : Json → Option (List α)
  | .arr xs => decodeElems dec xs
  | _ => none

/-- The cardinality enum the macro emits for a single-kind, non-functional
property (lines 368-395: `pub enum #enum_ty { Term(#ty), Array(Vec<#ty>) }`,
untagged). -/
inductive CardEnum (α : Type) where
  | Term (t : α) : CardEnum α
  | Array (v : List α) : CardEnum α

/-- The `Default` impl the macro emits for the cardinality enum:
`#enum_ty::Array(Vec::new())`. -/
def CardEnum.defaultVal : CardEnum α := .Array []

/-- Serde serialization of the untagged cardinality enum: the variant
content is emitted bare. -/
def encodeCard (c : Codec α) : CardEnum α → Json
  | .Term t => c.enc t
  | .Array v => .arr (v.map c.enc)

/-- Serde deserialization of the untagged cardinality enum: variants are
tried in declaration order, `Term` before `Array`, first success wins. -/
def decodeCard (c : Codec α) (j : Json) : Option (CardEnum α) :=
  match c.dec j with
  | some t => some (.Term t)
  | none => (decodeVec c.dec j).map .Array

/-- Serde deserialization of an untagged enum with variants in declaration
order, generically: a list of variant decoders tried left to right, first
success wins; the result records which variant matched (lines 400-459 and
504-521 emit such enums for poly-typed properties). -/
def decodeUntagged (decs : List (Json → Option α)) (j : Json) : Option (Nat × α) :=
  match decs with
  | [] => none
  | d :: rest =>
    match d j with
    | some v => some (0, v)
    | none => (decodeUntagged rest j).map (fun p => (p.1 + 1, p.2))

/-- Decode errors a serde deserializer can report for the generated
structs. -/
inductive DecodeError where
  | missingField (name : String) : DecodeError
  | invalidValue (name : String) : DecodeError
  | notAnObject : DecodeError
deriving DecidableEq

/-- First value stored under any of the given keys (serde matches a field
by its canonical name or any `#[serde(alias = ...)]`). -/
def lookupKey (keys : List String) : List (String × Json) → Option Json
  | [] => none
  | (k, v) :: rest => if k ∈ keys then some v else lookupKey keys rest

/-- The struct the macro emits for one non-required property (lines
538-541): `#[serde(skip_serializing_if = "Option::is_none")] pub #fname:
Option<#ty>` with `#ty` the cardinality enum.  Generic in the value
kind. -/
structure OptProps (α : Type) where
  fld : Option (CardEnum α)

/-- The struct the macro emits for one non-required functional property
(lines 538-541 with the bare kind as `#ty`). -/
structure OptPropsF (α : Type) where
  fld : Option α

/-- The struct the macro emits for one required property (lines 533-536:
the field is stored without an `Option` wrapper).  `β` is the stored field
type, whichever shape the descriptor dictates. -/
structure ReqProps (β : Type) where
  fld : β

/-- Serde serialization of the non-required property struct:
`skip_serializing_if = "Option::is_none"` drops the whole field when the
stored value is `none`; otherwise the field is emitted. -/
def encodeOptProps (c : Codec α) (fname : String) (p : OptProps α) : Json :=
  .obj (match p.fld with
    | none => []
    | some e => [(fname, encodeCard c e)])

/-- Serde deserialization of the non-required property struct: a missing
`Option` field becomes `none`, and so does a field present as JSON `null`
(serde checks an `Option` for `null` before consulting the inner type); any
other present value is decoded by the untagged cardinality enum. -/
def decodeOptProps (c : Codec α) (fname : String) (aliases : List String)
    (j : Json) : Except DecodeError (OptProps α) :=
  match j with
  | .obj fs =>
    match lookupKey (fname :: aliases) fs with
    | none => .ok ⟨none⟩
    | some .null => .ok ⟨none⟩
    | some jv =>
      match decodeCard c jv with
      | some e => .ok ⟨some e⟩
      | none => .error (.invalidValue fname)
  | _ => .error .notAnObject

/-- Serde deserialization of the required property struct: a missing field
is a hard error naming the field; `decV` decodes the stored field type. -/
def decodeReqProps (decV : Json → Option β) (fname : String)
    (aliases : List String) (j : Json) : Except DecodeError (ReqProps β) :=
  match j with
  | .obj fs =>
    match lookupKey (fname :: aliases) fs with
    | none => .error (.missingField fname)
    | some jv =>
      match decV jv with
      | some v => .ok ⟨v⟩
      | none => .error (.invalidValue fname)
  | _ => .error .notAnObject

/-! Accessors emitted for a single-kind, non-functional, non-required
property (lines 684-745).  A Rust method mutating `self` and returning
`Result<&mut Self, E>` is modelled as a function from the entry state to
the pair of the call result and the state after the call; the `?` operator
returns before any mutation, so the error case keeps the entry state. -/

/-- `get_#fname`: `Some(#enum_ty::Term(ref term)) => Some(term), _ => None`. -/
def get_fld : OptProps α → Option α
  | ⟨some (.Term t)⟩ => some t
  | _ => none

/-- `get_many_#fname_s`: `Some(#enum_ty::Array(ref a)) => Some(a), _ => None`. -/
def get_many_flds : OptProps α → Option (List α)
  | ⟨some (.Array a)⟩ => some a
  | _ => none

/-- `set_#fname`: `self.#fname = Some(#enum_ty::Term(item.try_into()?))`.
`conv` models the `TryInto` conversion of the input. -/
def set_fld (conv : τ → Except ε α) (item : τ) (p : OptProps α) :
    Except ε Unit × OptProps α :=
  match conv item with
  | .ok v => (.ok (), { fld := some (.Term v) })
  | .error e => (.error e, p)

/-- Rust `collect::<Result<Vec<_>, _>>()`: all values, or the first
error. -/
def collectResults : List (Except ε α) → Except ε (List α)
  | [] => .ok []
  | x :: xs =>
    match x with
    | .error e => .error e
    | .ok v =>
      match collectResults xs with
      | .error e => .error e
      | .ok vs => .ok (v :: vs)

/-- `set_many_#fname_s`: converts the whole input list first
(`collect::<Result<Vec<_>,_>>()?`), then overwrites the field with
`Some(#enum_ty::Array(item))`. -/
def set_many_flds (conv : τ → Except ε α) (items : List τ) (p : OptProps α) :
    Except ε Unit × OptProps α :=
  match collectResults (items.map conv) with
  | .ok vs => (.ok (), { fld := some (.Array vs) })
  | .error e => (.error e, p)

/-- `set_#fname` for a functional, non-required property (lines 655-667):
`self.#fname = Some(item.try_into()?)`, the value stored directly. -/
def set_fld_functional (conv : τ → Except ε α) (item : τ) (p : OptPropsF α) :
    Except ε Unit × OptPropsF α :=
  match conv item with
  | .ok v => (.ok (), (⟨some v⟩ : OptPropsF α))
  | .error e => (.error e, p)

/-- `delete_#fname` (lines 986-997): `self.#fname = None; self`. -/
def delete_fld (p : OptProps α) : OptProps α := { p with fld := none }

/-! ### Which accessors the macro generates, per descriptor

The `fns` expression of `properties` (lines 551-1007) branches on
`types.len() == 1`, then on `functional`, then on `required`; the
`delete` accessor is assembled only in the final branch (lines 986-1000),
guarded by `!required`. -/

/-- A property descriptor as the macro sees it after parsing: number of
declared value kinds, `functional` flag, `required` flag. -/
structure Description where
  typesLen : Nat
  functional : Bool
  required : Bool
deriving DecidableEq

/-- The kinds of accessor functions the macro can emit for a property. -/
inductive AccessorKind where
  | get : AccessorKind
  | set : AccessorKind
  | getMany : AccessorKind
  | setMany : AccessorKind
  | delete : AccessorKind
deriving DecidableEq

/-- The accessor kinds the `fns` expression emits for one descriptor,
following its branch structure: single-kind properties get `get`/`set`
(plus the many-variants when not functional); multi-kind properties get
one `get`/`set` pair per declared kind (plus the many-variants when not
functional); `delete` is assembled only in the multi-kind non-functional
branch and only when the property is not required. -/
def generatedAccessors (d : Description) : List AccessorKind :=
  if d.typesLen == 1 then
    if d.functional then
      [.get, .set]
    else
      [.get, .set, .getMany, .setMany]
  else if d.functional then
    (List.range d.typesLen).flatMap (fun _ => [.get, .set])
  else
    ((List.range d.typesLen).flatMap (fun _ => [.get, .set, .getMany, .setMany]))
      ++ (if !d.required then [.delete] else [])

/-- Codec of the plain string value kind: encodes as a JSON string,
decodes only from a JSON string (serde behavior of `String`). -/
def strCodec : Codec String :=
  ⟨Json.str, fun j =>
    match j with
    | .str s => some s
    | _ => none⟩

/-- A sample fallible conversion for witnesses: naturals below 10 convert,
larger ones fail. -/
def smallNat (n : Nat) : Except String Nat :=
  if n < 10 then .ok n else .error "too big"

/-! ### Shared lemmas -/

/-- When `collect` over mapped conversions reports an error, that error is
the conversion error of some element of the input list. -/
theorem collectResults_error_mem {conv : τ → Except ε α} :
    ∀ {items : List τ} {e : ε},
      collectResults (items.map conv) = .error e →
      ∃ z ∈ items, conv z = .error e := by
  intro items
  induction items with
  | nil => intro e h; simp [collectResults] at h
  | cons z zs ih =>
    intro e h
    simp only [List.map, collectResults] at h
    cases hz : conv z with
    | error e2 =>
      rw [hz] at h
      refine ⟨z, List.mem_cons_self z zs, ?_⟩
      cases h
      exact hz
    | ok v =>
      rw [hz] at h
      cases hrest : collectResults (zs.map conv) with
      | error e2 =>
        rw [hrest] at h
        cases h
        obtain ⟨w, hw, hcw⟩ := ih hrest
        exact ⟨w, List.mem_cons_of_mem z hw, hcw⟩
      | ok vs =>
        rw [hrest] at h
        cases h

/-- Looking a set of keys up in an object none of whose entries uses one of
those keys finds nothing. -/
theorem lookupKey_eq_none {keys : List String} :
    ∀ {fs : List (String × Json)},
      (∀ kv ∈ fs, kv.1 ∉ keys) → lookupKey keys fs = none := by
  intro fs
  induction fs with
  | nil => intro _; rfl
  | cons kv rest ih =>
    intro h
    have hk : kv.1 ∉ keys := h kv (List.mem_cons_self kv rest)
    obtain ⟨k, v⟩ := kv
    simp only [lookupKey, if_neg hk]
    exact ih (fun kv2 hm => h kv2 (List.mem_cons_of_mem _ hm))

/-! ### Claims about the generated property code -/

/-- Claim C1, counterexample: for a single-kind non-functional non-required
property over the string kind, a stored empty collection `Array([])` is
encoded with the field present (holding `[]`), not dropped; and decoding an
object without the field yields the absent state `none`, not `Array([])`. -/
theorem emptyArray_field_not_dropped :
    encodeOptProps strCodec "fld" ⟨some (.Array [])⟩ ≠ .obj [] ∧
    decodeOptProps strCodec "fld" [] (.obj []) ≠ .ok ⟨some (.Array [])⟩ := by
  constructor
  · intro h
    simp [encodeOptProps, encodeCard] at h
  · intro h
    simp [decodeOptProps, lookupKey] at h

/-- Claim C1, amended: the absent state of a non-required non-functional
property is the `Option` value `none`: encoding it omits the field, and
decoding JSON in which the field is absent produces it (round trip between
`none` and field absence); the empty collection `some (Array [])` is a
distinct state that is emitted as the field holding the JSON array `[]`. -/
theorem optProps_absence_roundtrip (α : Type) (c : Codec α) (fname : String) :
    encodeOptProps c fname ⟨none⟩ = .obj [] ∧
    decodeOptProps c fname [] (.obj []) = .ok ⟨none⟩ ∧
    encodeOptProps c fname ⟨some (.Array [])⟩ = .obj [(fname, .arr [])] :=
  ⟨rfl, rfl, rfl⟩

/-- Claim C3, counterexample: a single-kind, non-functional, non-required
property gets no `delete` accessor from the macro. -/
theorem delete_not_generated_single_kind :
    AccessorKind.delete ∉ generatedAccessors ⟨1, false, false⟩ := by decide

/-- Claim C3, amended: the macro generates `delete` exactly for the
non-required properties that declare more than one value kind and are not
functional; where generated, it resets the field to the absent state
`none`, and is a no-op when the field is already absent. -/
theorem delete_generated_iff (d : Description) (h : 0 < d.typesLen) :
    (AccessorKind.delete ∈ generatedAccessors d ↔
      1 < d.typesLen ∧ d.functional = false ∧ d.required = false) ∧
    (∀ (α : Type) (p : OptProps α),
      (delete_fld p).fld = none ∧ delete_fld (⟨none⟩ : OptProps α) = ⟨none⟩) := by
  refine ⟨?_, fun α p => ⟨rfl, rfl⟩⟩
  rcases d with ⟨n, fn, rq⟩
  simp only at h
  unfold generatedAccessors
  simp only
  by_cases h1 : n = 1
  · subst h1
    cases fn <;> simp
  · have hb : (n == 1) = false := by simpa using h1
    rw [hb]
    simp only [Bool.false_eq_true, if_false]
    cases fn with
    | false =>
      cases rq with
      | false =>
        simp only [Bool.not_false, if_pos rfl]
        simp [List.mem_flatMap]
        omega
      | true =>
        simp [List.mem_flatMap]
    | true =>
      simp [List.mem_flatMap]

/-- Claim C3, amended, witness: a two-kind, non-functional, non-required
descriptor does get the `delete` accessor. -/
theorem delete_generated_iff_witness :
    AccessorKind.delete ∈ generatedAccessors ⟨2, false, false⟩ :=
  (delete_generated_iff ⟨2, false, false⟩ (by decide)).1.mpr (by decide)

/-- Claim C4: for a single value-kind, non-functional property, decoding a
bare (non-array) JSON scalar accepted by the kind yields `Term`, decoding a
one-element JSON array whose element the kind accepts yields `Array([v])`
(when the kind itself rejects array input), these two stored states are
distinct, and `get` returns the contained value only for `Term` while
`get_many` returns the contained list only for `Array`. -/
theorem single_kind_term_array (α : Type) (c : Codec α) (j x : Json)
    (v w : α) (vs : List α)
    (_hscalar : ∀ ys, j ≠ .arr ys)
    (hdec : c.dec j = some v)
    (harr : c.dec (.arr [x]) = none)
    (hx : c.dec x = some w) :
    decodeCard c j = some (.Term v) ∧
    decodeCard c (.arr [x]) = some (.Array [w]) ∧
    CardEnum.Term v ≠ CardEnum.Array [v] ∧
    get_fld ⟨some (.Term v)⟩ = some v ∧
    get_fld (⟨some (.Array [w])⟩ : OptProps α) = none ∧
    get_many_flds (⟨some (.Array vs)⟩ : OptProps α) = some vs ∧
    get_many_flds (⟨some (.Term v)⟩ : OptProps α) = none := by
  refine ⟨?_, ?_, ?_, rfl, rfl, rfl, rfl⟩
  · simp [decodeCard, hdec]
  · simp [decodeCard, harr, decodeVec, decodeElems, hx]
  · intro hcontra
    cases hcontra

/-- Claim C4, witness: with the string kind, the scalar `"a"` decodes as
`Term "a"` and the one-element array `["b"]` decodes as `Array ["b"]`. -/
theorem single_kind_term_array_witness :
    decodeCard strCodec (.str "a") = some (.Term "a") ∧
    decodeCard strCodec (.arr [.str "b"]) = some (.Array ["b"]) := by
  have h := single_kind_term_array String strCodec (.str "a") (.str "b")
    "a" "b" [] (fun ys hy => by cases hy) rfl rfl rfl
  exact ⟨h.1, h.2.1⟩

/-- Claim C5: untagged decoding of a poly-typed property tries the declared
kinds in declaration order and commits to the first whose decode succeeds;
decoders declared after the first success are never consulted. -/
theorem untagged_first_declared_wins (α : Type)
    (decs : List (Json → Option α)) (j : Json) (i : Nat)
    (d : Json → Option α) (v : α)
    (hget : decs[i]? = some d)
    (hd : d j = some v)
    (hearlier : ∀ k, k < i → ∀ dk, decs[k]? = some dk → dk j = none) :
    decodeUntagged decs j = some (i, v) := by
  induction decs generalizing i with
  | nil => simp at hget
  | cons d0 rest ih =>
    cases i with
    | zero =>
      simp only [List.getElem?_cons_zero, Option.some.injEq] at hget
      subst hget
      simp [decodeUntagged, hd]
    | succ i2 =>
      have h0 : d0 j = none := hearlier 0 (Nat.succ_pos i2) d0 (by simp)
      simp only [List.getElem?_cons_succ] at hget
      have hrest := ih i2 hget
        (fun k hk dk hdk => hearlier (k + 1) (Nat.succ_lt_succ hk) dk (by simpa using hdk))
      simp [decodeUntagged, h0, hrest]

/-- Claim C5, witness: a wire value matching both of two declared kinds
decodes as the first declared kind. -/
theorem untagged_first_declared_wins_witness :
    decodeUntagged [strCodec.dec, fun _ => some "second kind"] (.str "x") =
      some (0, "x") := by
  refine untagged_first_declared_wins String _ (.str "x") 0 strCodec.dec "x" rfl rfl ?_
  intro k hk
  exact absurd hk (Nat.not_lt_zero k)

/-- Claim C6: `set` and `set_many` are all-or-nothing: a failed conversion
(of the input, or of any element of the input list) returns that conversion
error and leaves the stored property exactly as it was; a successful
`set_many` overwrites the whole property with `Array` of the converted
list, and a successful `set` overwrites it with `Term` of the converted
value (with the bare converted value for a functional field). -/
theorem set_all_or_nothing (α τ ε : Type) (conv : τ → Except ε α)
    (p : OptProps α) (q : OptPropsF α)
    (itemsBad itemsGood : List τ) (x y : τ) (e : ε) (v : α) (vs : List α)
    (hB : collectResults (itemsBad.map conv) = .error e)
    (hG : collectResults (itemsGood.map conv) = .ok vs)
    (hx : conv x = .error e)
    (hy : conv y = .ok v) :
    set_many_flds conv itemsBad p = (.error e, p) ∧
    set_many_flds conv itemsGood p = (.ok (), ⟨some (.Array vs)⟩) ∧
    set_fld conv x p = (.error e, p) ∧
    set_fld conv y p = (.ok (), ⟨some (.Term v)⟩) ∧
    set_fld_functional conv x q = (.error e, q) ∧
    set_fld_functional conv y q = (.ok (), ⟨some v⟩) ∧
    (∃ z ∈ itemsBad, conv z = .error e) := by
  refine ⟨?_, ?_, ?_, ?_, ?_, ?_, collectResults_error_mem hB⟩
  · simp [set_many_flds, hB]
  · simp [set_many_flds, hG]
  · simp [set_fld, hx]
  · simp [set_fld, hy]
  · simp [set_fld_functional, hx]
  · simp [set_fld_functional, hy]

/-- Claim C6, witness: converting `[1, 99]` with the bounded conversion
fails on `99` and leaves the stored property untouched, while `[1, 2]`
converts fully and overwrites it. -/
theorem set_all_or_nothing_witness :
    set_many_flds smallNat [1, 99] ⟨some (.Term 5)⟩ =
      (.error "too big", ⟨some (.Term 5)⟩) ∧
    set_many_flds smallNat [1, 2] ⟨some (.Term 5)⟩ =
      (.ok (), ⟨some (.Array [1, 2])⟩) := by
  have h := set_all_or_nothing Nat Nat String smallNat
    ⟨some (.Term 5)⟩ ⟨none⟩ [1, 99] [1, 2] 99 7 "too big" 7 [1, 2]
    (by decide) (by decide) (by decide) (by decide)
  exact ⟨h.1, h.2.1⟩

/-- Claim C7: decoding a document in which neither a required property's
canonical key nor any of its aliases appears fails with the decode error
naming the missing property; no document value is produced. -/
theorem required_missing_is_error (β : Type) (decV : Json → Option β)
    (fname : String) (aliases : List String) (fs : List (String × Json))
    (habsent : ∀ kv ∈ fs, kv.1 ∉ fname :: aliases) :
    decodeReqProps decV fname aliases (.obj fs) =
      .error (.missingField fname) ∧
    ∀ d, decodeReqProps decV fname aliases (.obj fs) ≠ .ok d := by
  have hlk : lookupKey (fname :: aliases) fs = none := lookupKey_eq_none habsent
  constructor
  · simp [decodeReqProps, hlk]
  · intro d hcontra
    simp [decodeReqProps, hlk] at hcontra

/-- Claim C7, witness: a document holding only an unrelated key fails to
decode a required property named `kind` aliased `type`. -/
theorem required_missing_is_error_witness :
    decodeReqProps strCodec.dec "kind" ["type"]
      (.obj [("other", .str "x")]) = .error (.missingField "kind") := by
  refine (required_missing_is_error String strCodec.dec "kind" ["type"]
    [("other", .str "x")] ?_).1
  intro kv hkv
  simp only [List.mem_singleton] at hkv
  subst hkv
  decide

/-! ### Claims about the duration codec -/

namespace XsdDuration

/-- A character that occurs nowhere in a list is not found. -/
theorem find_eq_none {c : Char} {xs : List Char} (h : c ∉ xs) :
    find c xs = none := by
  induction xs with
  | nil => rfl
  | cons x rest ih =>
    rw [List.mem_cons, not_or] at h
    rw [find, if_neg (fun he : x = c => h.1 he.symm), ih h.2]
    rfl

/-- Shifting every found index by one can never produce index zero. -/
theorem map_succ_ne_zero (o : Option Nat) :
    (Option.map (· + 1) o == some 0) = false := by
  cases o with
  | none => rfl
  | some k => simp

/-- A segment without the designator yields zero and the unchanged
segment. -/
theorem parse_next_no_designator {s : List Char} {c : Char}
    (h : find c s = none) : parse_next s c = .ok (0, s) := by
  unfold parse_next
  rw [h]

/-- Claim C2 (code bug): the parser rejects a minus sign placed before the
leading `P` — `-PT5S` fails to parse — although the doc comment on
`XsdDuration` states that a minus sign may appear before the `P` to make
the duration negative; the sign the parser honors instead follows the `P`,
so `P-T5S` parses to minus five seconds. -/
theorem minus_before_p_rejected :
    from_str ("-PT5S".data) = .error .mk ∧
    from_str ("P-T5S".data) = .ok (seconds (-5)) ∧
    seconds (-5) < 0 :=
  ⟨by decide, by decide, by decide⟩

/-- The idealized accumulation identity of the unbounded embedding:
whenever the six designator extractions succeed, `from_str` returns the
mathematical sum of the components.  This describes the embedding only; it
carries no machine bound, so it is not by itself a statement about where
the source completes its arithmetic. -/
theorem from_str_unbounded_formula (s0 : List Char) (y mo d h mi se : Int)
    (l1 l2 l3 m1 m2 m3 : List Char)
    (hP : find 'P' s0 = some 0)
    (hY : parse_next (largeSeg s0) 'Y' = .ok (y, l1))
    (hM : parse_next l1 'M' = .ok (mo, l2))
    (hD : parse_next l2 'D' = .ok (d, l3))
    (hH : parse_next (smallSeg s0) 'H' = .ok (h, m1))
    (hMi : parse_next m1 'M' = .ok (mi, m2))
    (hS : parse_next m2 'S' = .ok (se, m3)) :
    from_str s0 = .ok ((if negFlag s0 then -1 else 1) *
      (days (365 * y) + days (31 * mo) + days d
        + hours h + minutes mi + seconds se)) := by
  unfold from_str
  rw [if_neg (by simp [hP])]
  simp only [hY, hM, hD, hH, hMi, hS]
  cases hn : negFlag s0 <;> simp [hn]

/-- When the checked accumulation completes, its result is the exact
mathematical sum of the components in whole seconds, negated on the
sign. -/
theorem mulI64_eq {a b x : Int} (hk : mulI64 a b = some x) : x = a * b := by
  unfold mulI64 at hk
  split_ifs at hk
  exact (Option.some.injEq _ _ ▸ hk).symm

theorem addI64_eq {a b x : Int} (hk : addI64 a b = some x) : x = a + b := by
  unfold addI64 at hk
  split_ifs at hk
  exact (Option.some.injEq _ _ ▸ hk).symm

theorem durAccumChecked_eq {neg : Bool} {y mo d h mi se t : Int}
    (hk : durAccumChecked neg y mo d h mi se = some t) :
    t = (if neg then -1 else 1) *
      ((365 * y) * 86400 + (31 * mo) * 86400 + d * 86400
        + h * 3600 + mi * 60 + se) := by
  rw [durAccumChecked] at hk
  simp only [bind, Option.bind_eq_some] at hk
  obtain ⟨m1, hm1, s1, hs1, m2, hm2, s2, hs2, a1, ha1, s3, hs3, a2, ha2,
    s4, hs4, a3, ha3, s5, hs5, a4, ha4, a5, ha5, hfin⟩ := hk
  rw [mulI64_eq hm1] at hs1
  rw [mulI64_eq hs1] at ha1
  rw [mulI64_eq hm2] at hs2
  rw [mulI64_eq hs2] at ha1
  rw [addI64_eq ha1] at ha2
  rw [mulI64_eq hs3] at ha2
  rw [addI64_eq ha2] at ha3
  rw [mulI64_eq hs4] at ha3
  rw [addI64_eq ha3] at ha4
  rw [mulI64_eq hs5] at ha4
  rw [addI64_eq ha4] at ha5
  rw [addI64_eq ha5] at hfin
  cases neg with
  | false =>
    simp only [Bool.false_eq_true, if_false] at hfin ⊢
    injection hfin with hfin2
    rw [← hfin2]
    ring
  | true =>
    simp only [if_true] at hfin ⊢
    rw [mulI64_eq hfin]
    ring

/-- Claim C8, counterexample: `P106751991167301D` extracts the components
successfully (no sign, zero years and months, 106751991167301 days, empty
time segment), yet converting that day count to seconds already leaves the
i64 range, so the checked accumulation stops — the source panics (debug)
or wraps (release) there and never yields the claimed sum — while the
unbounded embedding returns the mathematical value the claim predicts. -/
theorem from_str_formula_overflow :
    largeSeg ("P106751991167301D".data) = "106751991167301D".data ∧
    smallSeg ("P106751991167301D".data) = [] ∧
    negFlag ("P106751991167301D".data) = false ∧
    parse_next ("106751991167301D".data) 'Y' =
      .ok (0, "106751991167301D".data) ∧
    parse_next ("106751991167301D".data) 'M' =
      .ok (0, "106751991167301D".data) ∧
    parse_next ("106751991167301D".data) 'D' = .ok (106751991167301, []) ∧
    durAccumChecked false 0 0 106751991167301 0 0 0 = none ∧
    fitsI64 (106751991167301 * 86400) = false ∧
    from_str ("P106751991167301D".data) = .ok (days 106751991167301) :=
  ⟨by decide, by decide, by decide, by decide, by decide, by decide,
    by decide, by decide, by decide⟩

/-- Claim C8, amended: for every parse whose component accumulation stays
within the i64 range at each step (each fixed-factor multiplication and
each running addition), the parsed value equals
`days(365*years) + days(31*months) + days(days) + hours + minutes +
seconds`, negated when the sign is present; inputs whose accumulation
leaves that range abort or wrap in the source instead of yielding the
sum. -/
theorem from_str_formula_in_range (s0 : List Char) (y mo d h mi se t : Int)
    (l1 l2 l3 m1 m2 m3 : List Char)
    (hP : find 'P' s0 = some 0)
    (hY : parse_next (largeSeg s0) 'Y' = .ok (y, l1))
    (hM : parse_next l1 'M' = .ok (mo, l2))
    (hD : parse_next l2 'D' = .ok (d, l3))
    (hH : parse_next (smallSeg s0) 'H' = .ok (h, m1))
    (hMi : parse_next m1 'M' = .ok (mi, m2))
    (hS : parse_next m2 'S' = .ok (se, m3))
    (hacc : durAccumChecked (negFlag s0) y mo d h mi se = some t) :
    from_str s0 = .ok (seconds t) ∧
    seconds t = (if negFlag s0 then -1 else 1) *
      (days (365 * y) + days (31 * mo) + days d
        + hours h + minutes mi + seconds se) := by
  have ht := durAccumChecked_eq hacc
  have hmain := from_str_unbounded_formula s0 y mo d h mi se
    l1 l2 l3 m1 m2 m3 hP hY hM hD hH hMi hS
  have heq : seconds t = (if negFlag s0 then -1 else 1) *
      (days (365 * y) + days (31 * mo) + days d
        + hours h + minutes mi + seconds se) := by
    rw [ht]
    unfold days hours minutes seconds nsPerSec
    cases negFlag s0 <;> simp <;> ring
  refine ⟨?_, heq⟩
  rw [heq]
  exact hmain

/-- Claim C8, amended, witness: the accumulation for `P1Y2M3DT4H5M6S`
stays in range and the parse yields 365+62+3 = 430 days plus 4 hours, 5
minutes and 6 seconds. -/
theorem from_str_formula_in_range_witness :
    from_str ("P1Y2M3DT4H5M6S".data) =
      .ok (days 430 + hours 4 + minutes 5 + seconds 6) := by
  have hcore := from_str_formula_in_range ("P1Y2M3DT4H5M6S".data)
    1 2 3 4 5 6 37166706
    ("2M3D".data) ("3D".data) ("".data) ("5M6S".data) ("6S".data) ("".data)
    (by decide) (by decide) (by decide) (by decide) (by decide) (by decide)
    (by decide) (by decide)
  exact hcore.1.trans (by decide)

/-- Claim C10: the parser silently discards unconsumed text holding no
recognized designator: `P4D` followed by any trailing text containing none
of `T`, `Y`, `M`, `D`, `H`, `S` parses successfully to 4 days, and the bare
string `P` parses to the zero duration. -/
theorem junk_after_days_accepted (suffix : List Char)
    (hjunk : ∀ c ∈ suffix, c ∉ (['T', 'Y', 'M', 'D', 'H', 'S'] : List Char)) :
    from_str ('P' :: '4' :: 'D' :: suffix) = .ok (days 4) ∧
    from_str ['P'] = .ok 0 := by
  refine ⟨?_, by decide⟩
  have hT : 'T' ∉ suffix := fun hm => hjunk 'T' hm (by decide)
  have hYc : 'Y' ∉ suffix := fun hm => hjunk 'Y' hm (by decide)
  have hMc : 'M' ∉ suffix := fun hm => hjunk 'M' hm (by decide)
  have hDc : 'D' ∉ suffix := fun hm => hjunk 'D' hm (by decide)
  have hHc : 'H' ∉ suffix := fun hm => hjunk 'H' hm (by decide)
  have hSc : 'S' ∉ suffix := fun hm => hjunk 'S' hm (by decide)
  have haP : afterP ('P' :: '4' :: 'D' :: suffix) = '4' :: 'D' :: suffix := by
    unfold afterP
    rw [trim_start_matches, if_pos rfl, trim_start_matches, if_neg (by decide)]
  have hneg : negFlag ('P' :: '4' :: 'D' :: suffix) = false := by
    unfold negFlag
    rw [haP, find, if_neg (by decide)]
    exact map_succ_ne_zero _
  have haS : afterSign ('P' :: '4' :: 'D' :: suffix) = '4' :: 'D' :: suffix := by
    unfold afterSign
    rw [haP, trim_start_matches, if_neg (by decide)]
  have hfT : find 'T' ('4' :: 'D' :: suffix) = none := by
    rw [find, if_neg (by decide), find, if_neg (by decide), find_eq_none hT]
    rfl
  have hlarge : largeSeg ('P' :: '4' :: 'D' :: suffix) = '4' :: 'D' :: suffix := by
    unfold largeSeg
    rw [haS, hfT]
  have hsmall : smallSeg ('P' :: '4' :: 'D' :: suffix) = [] := by
    unfold smallSeg
    rw [haS, hfT]
  have hfY : find 'Y' ('4' :: 'D' :: suffix) = none := by
    rw [find, if_neg (by decide), find, if_neg (by decide), find_eq_none hYc]
    rfl
  have hfM : find 'M' ('4' :: 'D' :: suffix) = none := by
    rw [find, if_neg (by decide), find, if_neg (by decide), find_eq_none hMc]
    rfl
  have hfD : find 'D' ('4' :: 'D' :: suffix) = some 1 := by
    rw [find, if_neg (by decide), find, if_pos rfl]
    rfl
  have hpD : parse_next ('4' :: 'D' :: suffix) 'D' =
      .ok (4, trim_start_matches 'D' ('D' :: suffix)) := by
    unfold parse_next
    rw [hfD]
    rfl
  have hP0 : find 'P' ('P' :: '4' :: 'D' :: suffix) = some 0 := by
    rw [find, if_pos rfl]
  unfold from_str
  rw [if_neg (by simp [hP0]), hlarge, hsmall, hneg]
  simp only [parse_next_no_designator hfY, parse_next_no_designator hfM, hpD,
    parse_next_no_designator (show find 'H' ([] : List Char) = none from rfl),
    parse_next_no_designator (show find 'M' ([] : List Char) = none from rfl),
    parse_next_no_designator (show find 'S' ([] : List Char) = none from rfl)]
  norm_num [days, hours, minutes, seconds, nsPerSec]

/-- Claim C10, witness: `P4Dxyz` parses successfully to 4 days even though
`xyz` was never consumed. -/
theorem junk_after_days_accepted_witness :
    from_str ("P4Dxyz".data) = .ok (days 4) := by
  rw [show ("P4Dxyz".data) = 'P' :: '4' :: 'D' :: "xyz".data from by decide]
  exact (junk_after_days_accepted ("xyz".data) (by decide)).1

/-- Claim C9: the formatter output decomposes into the sign part followed
by the `D`, `T`, `H`, `M`, `S` segments in that order, each unit segment
emitted exactly when its count is non-zero; and the `T` marker is emitted
exactly when at least one of the hour, minute or second segments is
emitted after it. -/
theorem fmt_T_marker (d0 : Int) :
    fmt d0 =
      ((if seconds 0 > d0 then "P-".data else "P".data)
        ++ (if fmtDays d0 > 0 then intChars (fmtDays d0) ++ ['D'] else [])
        ++ (if whole_seconds (remAfterDays d0) > 0 then ['T'] else [])
        ++ (if fmtHours d0 > 0 then intChars (fmtHours d0) ++ ['H'] else [])
        ++ (if fmtMinutes d0 > 0 then intChars (fmtMinutes d0) ++ ['M'] else [])
        ++ (if fmtSeconds d0 > 0 then intChars (fmtSeconds d0) ++ ['S'] else [])) ∧
    (whole_seconds (remAfterDays d0) > 0 ↔
      fmtHours d0 > 0 ∨ fmtMinutes d0 > 0 ∨ fmtSeconds d0 > 0) := by
  constructor
  · unfold fmt fmtSeconds remAfterMinutes fmtMinutes remAfterHours fmtHours
      remAfterDays fmtDays absDur
    by_cases hs : seconds 0 > d0
    · simp only [if_pos hs]
      split_ifs <;> simp
    · simp only [if_neg hs]
      split_ifs <;> simp
  · have h0 : seconds 0 = 0 := by norm_num [seconds, nsPerSec]
    have ha : 0 ≤ absDur d0 := by
      unfold absDur
      rw [h0]
      by_cases hs : (0 : Int) > d0
      · rw [if_pos hs]
        have hneg : d0 * (-1) = -d0 := by ring
        rw [hneg]
        omega
      · rw [if_neg hs]
        omega
    have hd1 : days 1 = 86400000000000 := by norm_num [days, seconds, nsPerSec]
    have hh1 : hours 1 = 3600000000000 := by norm_num [hours, seconds, nsPerSec]
    have hm1 : minutes 1 = 60000000000 := by norm_num [minutes, seconds, nsPerSec]
    have hsec1 : seconds 1 = 1000000000 := by norm_num [seconds, nsPerSec]
    have hwd : whole_days (absDur d0) = absDur d0 / 86400000000000 := by
      unfold whole_days
      rw [hd1, Int.tdiv_eq_ediv ha (by norm_num)]
    have hdayseq : days (whole_days (absDur d0)) =
        86400000000000 * (absDur d0 / 86400000000000) := by
      rw [hwd]
      unfold days seconds nsPerSec
      ring
    have hr1 : remAfterDays d0 = absDur d0 % 86400000000000 := by
      unfold remAfterDays fmtDays
      rw [hdayseq, Int.emod_def]
    have hr1n : 0 ≤ remAfterDays d0 := by
      rw [hr1]
      exact Int.emod_nonneg _ (by norm_num)
    have hws : whole_seconds (remAfterDays d0) = remAfterDays d0 / 1000000000 := by
      unfold whole_seconds
      rw [hsec1, Int.tdiv_eq_ediv hr1n (by norm_num)]
    have hfh : fmtHours d0 = remAfterDays d0 / 3600000000000 := by
      unfold fmtHours whole_hours
      rw [hh1, Int.tdiv_eq_ediv hr1n (by norm_num)]
    have hhourseq : hours (fmtHours d0) =
        3600000000000 * (remAfterDays d0 / 3600000000000) := by
      rw [hfh]
      unfold hours seconds nsPerSec
      ring
    have hr2 : remAfterHours d0 = remAfterDays d0 % 3600000000000 := by
      unfold remAfterHours
      rw [hhourseq, Int.emod_def]
    have hr2n : 0 ≤ remAfterHours d0 := by
      rw [hr2]
      exact Int.emod_nonneg _ (by norm_num)
    have hfm : fmtMinutes d0 = remAfterHours d0 / 60000000000 := by
      unfold fmtMinutes whole_minutes
      rw [hm1, Int.tdiv_eq_ediv hr2n (by norm_num)]
    have hmineq : minutes (fmtMinutes d0) =
        60000000000 * (remAfterHours d0 / 60000000000) := by
      rw [hfm]
      unfold minutes seconds nsPerSec
      ring
    have hr3 : remAfterMinutes d0 = remAfterHours d0 % 60000000000 := by
      unfold remAfterMinutes
      rw [hmineq, Int.emod_def]
    have hr3n : 0 ≤ remAfterMinutes d0 := by
      rw [hr3]
      exact Int.emod_nonneg _ (by norm_num)
    have hfs : fmtSeconds d0 = remAfterMinutes d0 / 1000000000 := by
      unfold fmtSeconds whole_seconds
      rw [hsec1, Int.tdiv_eq_ediv hr3n (by norm_num)]
    rw [hws, hfh, hfm, hfs, hr3, hr2, hr1]
    omega

end XsdDuration

end ActivityStreams

